import Mathlib

/-!
# Verification of the attendance-report ingestion pipeline

A shallow embedding of the Python sources of `attendance-report-react`
(`backend/utils/excel_processor.py`, `backend/services/attendance_service.py`,
`app.py`) together with proofs about the embedded definitions.

Modelling conventions:
* pandas cell values are modelled by `Cell` (`na` for NaN/missing, `str` for
  Python strings, `num` for numeric cells); Python floats are modelled by `Rat`
  (exact rationals standing in for IEEE doubles);
* Python `int(float(x))` truncates toward zero and is modelled by `pyTrunc`;
* the SQLAlchemy session is modelled by an explicit `DBState`; `query.first?`
  style lookups become `List.find?` over insertion-ordered lists, which matches
  the autoflush semantics of the session (pending inserts are visible to later
  queries in the same run);
* `print` calls, `gc.collect()` and the batched `db.session.commit()` /
  `expire_all()` calls have no observable effect in the pure model and are
  elided; the `try/except` wrappers around them cannot fail in the model.
-/

namespace AttendanceReport

/-! ## String helpers (Python `in`, `.endswith`, `.join`, `.upper`) -/

/-- `listStartsWith needle hay` is true when `hay` begins with `needle`. -/
def listStartsWith : List Char → List Char → Bool
  | [], _ => true
  | _ :: _, [] => false
  | p :: ps, h :: hs => p == h && listStartsWith ps hs

/-- `listHasSub needle hay` is true when `needle` occurs contiguously in `hay`. -/
def listHasSub (needle : List Char) : List Char → Bool
  | [] => listStartsWith needle []
  | h :: t => listStartsWith needle (h :: t) || listHasSub needle t

/-- Python's substring test `needle in hay`. -/
def strContains (hay needle : String) : Bool :=
  listHasSub needle.data hay.data

/-- Python's `s.endswith(pat)`. -/
def strEndsWith (s pat : String) : Bool :=
  listStartsWith pat.data.reverse s.data.reverse

/-- Python `s.upper()` (character-wise, as for the ASCII header text). -/
def pyUpper (s : String) : String :=
  String.mk (s.data.map Char.toUpper)

/-- Python `s.lower()` (character-wise). -/
def pyLower (s : String) : String :=
  String.mk (s.data.map Char.toLower)

/-! ## Python numeric cell values -/

/-- A pandas cell: NaN/missing, a Python string, or a numeric value. -/
inductive Cell where
  | na : Cell
  | str : String → Cell
  | num : Rat → Cell
deriving DecidableEq, Repr

/-- `pd.notna` on a cell. -/
def pyNotna : Cell → Bool
  | .na => false
  | _ => true

/-- Python `str(x)` on a cell value (`str(nan) = "nan"`; the textual form of a
numeric cell never contains letters, which is all the header scans rely on). -/
def pyStr : Cell → String
  | .na => "nan"
  | .str s => s
  | .num q => toString q

/-- Reads a digit string most-significant first, failing on a non-digit. -/
def digitsToNat (acc : Nat) : List Char → Option Nat
  | [] => some acc
  | c :: cs => if c.isDigit then digitsToNat (acc * 10 + (c.toNat - 48)) cs else none

/-- Decimal-literal parser modelling Python `float(s)` on the plain decimal
strings that occur in spreadsheet cells (optional sign, digits, optional
fractional part); any other string raises `ValueError`, modelled as `none`. -/
def pyFloatString (s : String) : Option Rat :=
  let cs := s.data
  let sign : Rat := match cs with
    | '-' :: _ => -1
    | _ => 1
  let body := match cs with
    | '-' :: t => t
    | '+' :: t => t
    | t => t
  let ipRest := body.span (fun c => !(c == '.'))
  match ipRest.2 with
  | [] =>
    if ipRest.1 = [] then none
    else (digitsToNat 0 ipRest.1).map (fun n => sign * (n : Rat))
  | _ :: fp =>
    if ipRest.1 = [] && fp = [] then none
    else
      match digitsToNat 0 ipRest.1, digitsToNat 0 fp with
      | some i, some f =>
        some (sign * ((i : Rat) + (f : Rat) / (10 : Rat) ^ fp.length))
      | _, _ => none

/-- Python `float(x)` on a cell; `none` models a raised `ValueError`. -/
def pyFloat : Cell → Option Rat
  | .na => none
  | .str s => pyFloatString s
  | .num q => some q

/-- Python `int(q)` for a float `q`: truncation toward zero. -/
def pyTrunc (q : Rat) : Int :=
  if 0 ≤ q then q.floor else -(Rat.floor (-q))

/-! ## Data model (`backend/models.py`) -/

/-- A row of the `students` table. -/
structure Student where
  id : Nat
  admission_no : String
  registration_no : String
  name : String
deriving DecidableEq, Repr

/-- A row of the `courses` table. -/
structure Course where
  id : Nat
  course_code : String
  course_name : String
deriving DecidableEq, Repr

/-- A row of the `attendance_records` table (the surrogate `id` column plays no
role in the verified claims and is omitted). -/
structure Record where
  student_id : Nat
  course_id : Nat
  attended_periods : Int
  conducted_periods : Int
  attendance_percentage : Rat
deriving DecidableEq, Repr

/-- The persistent store: insertion-ordered tables plus primary-key counters. -/
structure DBState where
  students : List Student
  courses : List Course
  records : List Record
  nextStudentId : Nat
  nextCourseId : Nat
deriving DecidableEq, Repr

/-- The empty database. -/
def DBState.empty : DBState := ⟨[], [], [], 1, 1⟩

/-- `Student.query.filter_by(registration_no=reg).first()`. -/
def findStudent (s : DBState) (reg : String) : Option Student :=
  s.students.find? (fun st => st.registration_no == reg)

/-- `Course.query.filter_by(course_code=code).first()`. -/
def findCourse (s : DBState) (code : String) : Option Course :=
  s.courses.find? (fun co => co.course_code == code)

/-- `AttendanceRecord.query.filter_by(student_id=sid, course_id=cid).first()`. -/
def findRecord (s : DBState) (sid cid : Nat) : Option Record :=
  s.records.find? (fun r => r.student_id == sid && r.course_id == cid)

/-- Replaces the first element satisfying `p` by `y` (in-place mutation of the
first row returned by a `filter_by(...).first()` query). -/
def replaceFirst (p : α → Bool) (y : α) : List α → List α
  | [] => []
  | x :: xs => if p x then y :: xs else x :: replaceFirst p y xs

/-! ## Extractor output (`_process_dataframe` result dictionary) -/

/-- One entry of `students_data`. -/
structure StudentData where
  admission_no : String
  registration_no : String
  name : String
deriving DecidableEq, Repr

/-- One entry of `attendance_data`. -/
structure AttTuple where
  registration_no : String
  course_code : String
  course_name : String
  attended_periods : Int
  conducted_periods : Int
  attendance_percentage : Rat
deriving DecidableEq, Repr

/-- One entry of `courses_info`: header column index plus code and name. -/
structure CourseInfo where
  colIdx : Nat
  code : String
  name : String
deriving DecidableEq, Repr

/-- The dictionary returned by `_process_dataframe` (`courses_info` values are
listed in ascending column-index order, the dict's insertion order). -/
structure Payload where
  students : List StudentData
  attendance : List AttTuple
  courses : List CourseInfo
deriving DecidableEq, Repr

/-! ## Reconciliation engine (`ExcelProcessor.save_to_database`) -/

/-- The aggregate counters `total_added`, `total_updated`, `total_skipped`. -/
structure Counters where
  added : Nat
  updated : Nat
  skipped : Nat
deriving DecidableEq, Repr

/-- Course phase of `save_to_database`: insert the course if no row with that
`course_code` exists, otherwise leave the table alone. -/
def addCourse (s : DBState) (ci : CourseInfo) : DBState :=
  match findCourse s ci.code with
  | some _ => s
  | none =>
    { s with
      courses := s.courses ++ [⟨s.nextCourseId, ci.code, ci.name⟩]
      nextCourseId := s.nextCourseId + 1 }

/-- Student phase of `save_to_database`: insert the student if no row with that
`registration_no` exists, otherwise leave the table alone. -/
def addStudent (s : DBState) (sd : StudentData) : DBState :=
  match findStudent s sd.registration_no with
  | some _ => s
  | none =>
    { s with
      students := s.students ++ [⟨s.nextStudentId, sd.admission_no, sd.registration_no, sd.name⟩]
      nextStudentId := s.nextStudentId + 1 }

/-- Body of the attendance-merge loop of `save_to_database` for one tuple:
skip below five conducted periods, resolve student and course, then insert /
"more conducted wins" update / skip.  An unresolvable tuple touches neither the
store nor the counters, exactly as in the source. -/
def saveAttendanceStep (acc : DBState × Counters) (t : AttTuple) : DBState × Counters :=
  let s := acc.1
  let c := acc.2
  if t.conducted_periods < 5 then
    (s, { c with skipped := c.skipped + 1 })
  else
    match findStudent s t.registration_no, findCourse s t.course_code with
    | some st, some co =>
      match findRecord s st.id co.id with
      | some r =>
        if r.conducted_periods < t.conducted_periods then
          ({ s with
             records := replaceFirst (fun x => x.student_id == st.id && x.course_id == co.id)
               { r with
                 attended_periods := t.attended_periods
                 conducted_periods := t.conducted_periods
                 attendance_percentage := t.attendance_percentage } s.records },
           { c with updated := c.updated + 1 })
        else
          (s, { c with skipped := c.skipped + 1 })
      | none =>
        ({ s with
           records := s.records ++
             [⟨st.id, co.id, t.attended_periods, t.conducted_periods, t.attendance_percentage⟩] },
         { c with added := c.added + 1 })
    | _, _ => (s, c)

/-- `ExcelProcessor.save_to_database`: courses, then students, then the
attendance merge, returning the final store and the aggregate counters. -/
def saveToDatabase (s : DBState) (pd : Payload) : DBState × Counters :=
  let s1 := pd.courses.foldl addCourse s
  let s2 := pd.students.foldl addStudent s1
  pd.attendance.foldl saveAttendanceStep (s2, ⟨0, 0, 0⟩)

/-! ## Lemmas about `find?` and `replaceFirst` -/

theorem find?_replaceFirst_self {α : Type} (p : α → Bool) (y : α) (l : List α)
    (hy : p y = true) (r : α) (h : l.find? p = some r) :
    (replaceFirst p y l).find? p = some y := by
  induction l with
  | nil => simp [List.find?] at h
  | cons x xs ih =>
    by_cases hx : p x = true
    · simp [replaceFirst, hx, List.find?, hy]
    · simp only [Bool.not_eq_true] at hx
      simp only [replaceFirst, hx, Bool.false_eq_true, if_false]
      rw [List.find?] at h ⊢
      simp only [hx] at h ⊢
      exact ih h

theorem find?_replaceFirst_other {α : Type} (p q : α → Bool) (y : α) (l : List α)
    (hq : ∀ x, q x = true → p x = false) (hy : p y = false) :
    (replaceFirst q y l).find? p = l.find? p := by
  induction l with
  | nil => rfl
  | cons x xs ih =>
    by_cases hx : q x = true
    · have hpx := hq x hx
      simp [replaceFirst, hx, List.find?, hy, hpx]
    · simp only [Bool.not_eq_true] at hx
      simp only [replaceFirst, hx, Bool.false_eq_true, if_false]
      rw [List.find?, List.find?]
      cases hpx : p x with
      | true => rfl
      | false => exact ih

/-! ## Claim theorems: merge policy -/

/-- **C4.** A tuple with fewer than five conducted periods is counted as
skipped by the attendance-merge loop of `save_to_database` and leaves the
store — every student, course and attendance row — completely untouched. -/
theorem belowFiveConducted_skipped (s : DBState) (c : Counters) (t : AttTuple)
    (h : t.conducted_periods < 5) :
    saveAttendanceStep (s, c) t = (s, { c with skipped := c.skipped + 1 }) := by
  simp [saveAttendanceStep, h]

/-- Witness for `belowFiveConducted_skipped` at `conducted_periods = 4`. -/
theorem belowFiveConducted_skipped_witness :
    ((4 : Int) < 5) ∧
      saveAttendanceStep (DBState.empty, ⟨0, 0, 0⟩) ⟨"21IT001", "22IT580", "DS", 4, 4, 100⟩ =
        (DBState.empty, ⟨0, 0, 1⟩) :=
  ⟨by decide,
   belowFiveConducted_skipped DBState.empty ⟨0, 0, 0⟩ ⟨"21IT001", "22IT580", "DS", 4, 4, 100⟩
     (by decide)⟩

/-- **C1.** For a tuple with at least five conducted periods whose student and
course resolve and which has an existing record: if the existing record has
strictly fewer conducted periods the stored attended/conducted/percentage are
replaced by the incoming values and the tuple is counted as updated; otherwise
the store is left completely unchanged and the tuple is counted as skipped. -/
theorem save_merge_policy (s : DBState) (c : Counters) (t : AttTuple)
    (st : Student) (co : Course) (r : Record)
    (h5 : ¬ t.conducted_periods < 5)
    (hst : findStudent s t.registration_no = some st)
    (hco : findCourse s t.course_code = some co)
    (hr : findRecord s st.id co.id = some r) :
    (r.conducted_periods < t.conducted_periods →
      ∃ s2, saveAttendanceStep (s, c) t = (s2, { c with updated := c.updated + 1 }) ∧
        s2.students = s.students ∧ s2.courses = s.courses ∧
        findRecord s2 st.id co.id =
          some { r with
                 attended_periods := t.attended_periods
                 conducted_periods := t.conducted_periods
                 attendance_percentage := t.attendance_percentage }) ∧
    (¬ r.conducted_periods < t.conducted_periods →
      saveAttendanceStep (s, c) t = (s, { c with skipped := c.skipped + 1 })) := by
  constructor
  · intro hlt
    have hpr : (fun x : Record => x.student_id == st.id && x.course_id == co.id) r = true := by
      have := List.find?_some hr
      simpa using this
    have hpy : (fun x : Record => x.student_id == st.id && x.course_id == co.id)
        { r with
          attended_periods := t.attended_periods
          conducted_periods := t.conducted_periods
          attendance_percentage := t.attendance_percentage } = true := by
      simpa using hpr
    refine ⟨{ s with
              records := replaceFirst (fun x => x.student_id == st.id && x.course_id == co.id)
                { r with
                  attended_periods := t.attended_periods
                  conducted_periods := t.conducted_periods
                  attendance_percentage := t.attendance_percentage } s.records }, ?_, rfl, rfl, ?_⟩
    · simp [saveAttendanceStep, h5, hst, hco, hr, hlt]
    · exact find?_replaceFirst_self _ _ s.records hpy r hr
  · intro hge
    simp [saveAttendanceStep, h5, hst, hco, hr, hge]

/-- Witness for `save_merge_policy`: an existing record with 10 conducted
periods, an incoming tuple with 12; both branches evaluated. -/
theorem save_merge_policy_witness :
    (¬ (12 : Int) < 5) ∧
      (((10 : Int) < 12 →
        ∃ s2, saveAttendanceStep
            (⟨[⟨1, "A1", "21IT001", "Alice"⟩], [⟨1, "22IT580", "DS"⟩], [⟨1, 1, 8, 10, 80⟩], 2, 2⟩,
             ⟨0, 0, 0⟩) ⟨"21IT001", "22IT580", "DS", 11, 12, 91⟩ =
            (s2, ⟨0, 1, 0⟩) ∧
          s2.students = [⟨1, "A1", "21IT001", "Alice"⟩] ∧
          s2.courses = [⟨1, "22IT580", "DS"⟩] ∧
          findRecord s2 1 1 = some ⟨1, 1, 11, 12, 91⟩) ∧
      (¬ (10 : Int) < 12 →
        saveAttendanceStep
            (⟨[⟨1, "A1", "21IT001", "Alice"⟩], [⟨1, "22IT580", "DS"⟩], [⟨1, 1, 8, 10, 80⟩], 2, 2⟩,
             ⟨0, 0, 0⟩) ⟨"21IT001", "22IT580", "DS", 11, 12, 91⟩ =
          (⟨[⟨1, "A1", "21IT001", "Alice"⟩], [⟨1, "22IT580", "DS"⟩], [⟨1, 1, 8, 10, 80⟩], 2, 2⟩,
           ⟨0, 0, 1⟩))) :=
  ⟨by decide,
   save_merge_policy
     ⟨[⟨1, "A1", "21IT001", "Alice"⟩], [⟨1, "22IT580", "DS"⟩], [⟨1, 1, 8, 10, 80⟩], 2, 2⟩
     ⟨0, 0, 0⟩ ⟨"21IT001", "22IT580", "DS", 11, 12, 91⟩
     ⟨1, "A1", "21IT001", "Alice"⟩ ⟨1, "22IT580", "DS"⟩ ⟨1, 1, 8, 10, 80⟩
     (by decide) (by decide) (by decide) (by decide)⟩

/-! ## Preservation lemmas for the phases of `save_to_database` -/

theorem addCourse_records (s : DBState) (ci : CourseInfo) :
    (addCourse s ci).records = s.records := by
  unfold addCourse; split <;> rfl

theorem addCourse_students (s : DBState) (ci : CourseInfo) :
    (addCourse s ci).students = s.students := by
  unfold addCourse; split <;> rfl

theorem addStudent_records (s : DBState) (sd : StudentData) :
    (addStudent s sd).records = s.records := by
  unfold addStudent; split <;> rfl

theorem addStudent_courses (s : DBState) (sd : StudentData) :
    (addStudent s sd).courses = s.courses := by
  unfold addStudent; split <;> rfl

theorem foldl_addCourse_records (cs : List CourseInfo) (s : DBState) :
    (cs.foldl addCourse s).records = s.records := by
  induction cs generalizing s with
  | nil => rfl
  | cons ci cs ih => rw [List.foldl_cons, ih, addCourse_records]

theorem foldl_addCourse_students (cs : List CourseInfo) (s : DBState) :
    (cs.foldl addCourse s).students = s.students := by
  induction cs generalizing s with
  | nil => rfl
  | cons ci cs ih => rw [List.foldl_cons, ih, addCourse_students]

theorem foldl_addStudent_records (sds : List StudentData) (s : DBState) :
    (sds.foldl addStudent s).records = s.records := by
  induction sds generalizing s with
  | nil => rfl
  | cons sd sds ih => rw [List.foldl_cons, ih, addStudent_records]

theorem foldl_addStudent_courses (sds : List StudentData) (s : DBState) :
    (sds.foldl addStudent s).courses = s.courses := by
  induction sds generalizing s with
  | nil => rfl
  | cons sd sds ih => rw [List.foldl_cons, ih, addStudent_courses]

theorem saveAttendanceStep_students (acc : DBState × Counters) (t : AttTuple) :
    (saveAttendanceStep acc t).1.students = acc.1.students := by
  obtain ⟨s, c⟩ := acc
  unfold saveAttendanceStep
  dsimp only
  split
  · rfl
  · split
    · split
      · split <;> rfl
      · rfl
    · rfl

theorem saveAttendanceStep_courses (acc : DBState × Counters) (t : AttTuple) :
    (saveAttendanceStep acc t).1.courses = acc.1.courses := by
  obtain ⟨s, c⟩ := acc
  unfold saveAttendanceStep
  dsimp only
  split
  · rfl
  · split
    · split
      · split <;> rfl
      · rfl
    · rfl

theorem foldl_step_students (l : List AttTuple) (acc : DBState × Counters) :
    (l.foldl saveAttendanceStep acc).1.students = acc.1.students := by
  induction l generalizing acc with
  | nil => rfl
  | cons t l ih => rw [List.foldl_cons, ih, saveAttendanceStep_students]

theorem foldl_step_courses (l : List AttTuple) (acc : DBState × Counters) :
    (l.foldl saveAttendanceStep acc).1.courses = acc.1.courses := by
  induction l generalizing acc with
  | nil => rfl
  | cons t l ih => rw [List.foldl_cons, ih, saveAttendanceStep_courses]

theorem findStudent_congr (s1 s2 : DBState) (reg : String)
    (h : s1.students = s2.students) : findStudent s1 reg = findStudent s2 reg := by
  unfold findStudent; rw [h]

theorem findCourse_congr (s1 s2 : DBState) (code : String)
    (h : s1.courses = s2.courses) : findCourse s1 code = findCourse s2 code := by
  unfold findCourse; rw [h]

theorem findRecord_congr (s1 s2 : DBState) (sid cid : Nat)
    (h : s1.records = s2.records) : findRecord s1 sid cid = findRecord s2 sid cid := by
  unfold findRecord; rw [h]

/-! ## Monotonicity of the attendance merge -/

theorem saveAttendanceStep_mono (acc : DBState × Counters) (t : AttTuple)
    (sid cid : Nat) (r : Record) (h : findRecord acc.1 sid cid = some r) :
    ∃ r2, findRecord (saveAttendanceStep acc t).1 sid cid = some r2 ∧
      (r2 = r ∨ r.conducted_periods < r2.conducted_periods) := by
  obtain ⟨s, c⟩ := acc
  by_cases h5 : t.conducted_periods < 5
  · exact ⟨r, by simpa [saveAttendanceStep, h5] using h, Or.inl rfl⟩
  · rcases hst : findStudent s t.registration_no with _ | st
    · exact ⟨r, by simpa [saveAttendanceStep, h5, hst] using h, Or.inl rfl⟩
    · rcases hco : findCourse s t.course_code with _ | co
      · exact ⟨r, by simpa [saveAttendanceStep, h5, hst, hco] using h, Or.inl rfl⟩
      · rcases hr : findRecord s st.id co.id with _ | r0
        · -- insert: the existing record is still found first in the appended list
          refine ⟨r, ?_, Or.inl rfl⟩
          simp only [saveAttendanceStep, h5, hst, hco, hr, if_false]
          unfold findRecord at h ⊢
          simp only [List.find?_append, h]
          rfl
        · by_cases hlt : r0.conducted_periods < t.conducted_periods
          · by_cases hpair : st.id = sid ∧ co.id = cid
            · -- updating exactly the tracked pair
              obtain ⟨h1, h2⟩ := hpair
              subst h1; subst h2
              have hr0 : r0 = r := by
                rw [hr] at h; exact (Option.some.injEq _ _).mp h
              subst hr0
              have hpy : (fun x : Record => x.student_id == st.id && x.course_id == co.id)
                  { r0 with
                    attended_periods := t.attended_periods
                    conducted_periods := t.conducted_periods
                    attendance_percentage := t.attendance_percentage } = true := by
                have := List.find?_some hr
                simpa using this
              refine ⟨{ r0 with
                        attended_periods := t.attended_periods
                        conducted_periods := t.conducted_periods
                        attendance_percentage := t.attendance_percentage }, ?_, Or.inr hlt⟩
              simp only [saveAttendanceStep, h5, hst, hco, hr, hlt, if_true]
              exact find?_replaceFirst_self _ _ s.records hpy r0 hr
            · -- updating a different pair: the tracked record is untouched
              refine ⟨r, ?_, Or.inl rfl⟩
              simp only [saveAttendanceStep, h5, hst, hco, hr, hlt, if_true, if_false,
                Bool.false_eq_true]
              unfold findRecord at h ⊢
              dsimp only
              rw [find?_replaceFirst_other (fun x => x.student_id == sid && x.course_id == cid)
                (fun x => x.student_id == st.id && x.course_id == co.id) _ s.records ?_ ?_]
              · exact h
              · intro x hx
                simp only [Bool.and_eq_true, beq_iff_eq] at hx
                by_contra hpx
                simp only [Bool.not_eq_false, Bool.and_eq_true, beq_iff_eq] at hpx
                exact hpair ⟨hx.1.symm.trans hpx.1, hx.2.symm.trans hpx.2⟩
              · have := List.find?_some hr
                simp only [Bool.and_eq_true, beq_iff_eq] at this
                by_contra hpy
                simp only [Bool.not_eq_false, Bool.and_eq_true, beq_iff_eq] at hpy
                exact hpair ⟨this.1.symm.trans hpy.1, this.2.symm.trans hpy.2⟩
          · exact ⟨r, by simpa [saveAttendanceStep, h5, hst, hco, hr, hlt] using h, Or.inl rfl⟩

theorem foldl_step_mono (l : List AttTuple) (acc : DBState × Counters)
    (sid cid : Nat) (r : Record) (h : findRecord acc.1 sid cid = some r) :
    ∃ r2, findRecord (l.foldl saveAttendanceStep acc).1 sid cid = some r2 ∧
      (r2 = r ∨ r.conducted_periods < r2.conducted_periods) := by
  induction l generalizing acc r with
  | nil => exact ⟨r, h, Or.inl rfl⟩
  | cons t l ih =>
    obtain ⟨r1, hr1, hc1⟩ := saveAttendanceStep_mono acc t sid cid r h
    obtain ⟨r2, hr2, hc2⟩ := ih (saveAttendanceStep acc t) r1 hr1
    refine ⟨r2, by simpa using hr2, ?_⟩
    rcases hc1 with rfl | hc1
    · exact hc2
    · rcases hc2 with rfl | hc2
      · exact Or.inr hc1
      · exact Or.inr (hc1.trans hc2)

/-- **C2.** Across any ingestion run, the persisted `conducted_periods` of an
existing attendance record never decreases: `save_to_database` either leaves
the record unchanged or replaces it by one with strictly more conducted
periods.  Quantified over arbitrary starting stores, this covers every run of
any sequence of ingestion runs. -/
theorem conducted_periods_monotone (s : DBState) (pd : Payload)
    (sid cid : Nat) (r : Record) (h : findRecord s sid cid = some r) :
    ∃ r2, findRecord (saveToDatabase s pd).1 sid cid = some r2 ∧
      (r2 = r ∨ r.conducted_periods < r2.conducted_periods) := by
  unfold saveToDatabase
  refine foldl_step_mono pd.attendance _ sid cid r ?_
  have hrec : (pd.students.foldl addStudent (pd.courses.foldl addCourse s)).records
      = s.records := by
    rw [foldl_addStudent_records, foldl_addCourse_records]
  rw [findRecord_congr _ s _ _ hrec]
  exact h

/-- Witness for `conducted_periods_monotone`: a stored record with 10 conducted
periods and a payload carrying 12 for the same pair. -/
theorem conducted_periods_monotone_witness :
    findRecord ⟨[⟨1, "A1", "21IT001", "Alice"⟩], [⟨1, "22IT580", "DS"⟩],
        [⟨1, 1, 8, 10, 80⟩], 2, 2⟩ 1 1 = some ⟨1, 1, 8, 10, 80⟩ ∧
    ∃ r2, findRecord (saveToDatabase
        ⟨[⟨1, "A1", "21IT001", "Alice"⟩], [⟨1, "22IT580", "DS"⟩], [⟨1, 1, 8, 10, 80⟩], 2, 2⟩
        ⟨[⟨"A1", "21IT001", "Alice"⟩], [⟨"21IT001", "22IT580", "DS", 11, 12, 91⟩],
          [⟨5, "22IT580", "DS"⟩]⟩).1 1 1 = some r2 ∧
      (r2 = ⟨1, 1, 8, 10, 80⟩ ∨ (10 : Int) < r2.conducted_periods) :=
  ⟨by decide,
   conducted_periods_monotone
     ⟨[⟨1, "A1", "21IT001", "Alice"⟩], [⟨1, "22IT580", "DS"⟩], [⟨1, 1, 8, 10, 80⟩], 2, 2⟩
     ⟨[⟨"A1", "21IT001", "Alice"⟩], [⟨"21IT001", "22IT580", "DS", 11, 12, 91⟩],
       [⟨5, "22IT580", "DS"⟩]⟩ 1 1 ⟨1, 1, 8, 10, 80⟩ (by decide)⟩

/-! ## Presence of courses and students after the insert phases -/

theorem addCourse_preserves_present (s : DBState) (ci : CourseInfo) (code : String)
    (h : (findCourse s code).isSome = true) :
    (findCourse (addCourse s ci) code).isSome = true := by
  unfold addCourse
  split
  · exact h
  · unfold findCourse at h ⊢
    dsimp only
    rw [List.find?_append]
    obtain ⟨y, hy⟩ := Option.isSome_iff_exists.mp h
    rw [hy]; rfl

theorem addCourse_present_self (s : DBState) (ci : CourseInfo) :
    (findCourse (addCourse s ci) ci.code).isSome = true := by
  rcases h : findCourse s ci.code with _ | co
  · unfold findCourse at h
    simp [addCourse, findCourse, h, List.find?_append, List.find?]
  · simp [addCourse, h]

theorem foldl_addCourse_preserves_present (cs : List CourseInfo) (s : DBState) (code : String)
    (h : (findCourse s code).isSome = true) :
    (findCourse (cs.foldl addCourse s) code).isSome = true := by
  induction cs generalizing s with
  | nil => exact h
  | cons ci cs ih => exact ih _ (addCourse_preserves_present s ci code h)

theorem foldl_addCourse_present (cs : List CourseInfo) (s : DBState) :
    ∀ ci ∈ cs, (findCourse (cs.foldl addCourse s) ci.code).isSome = true := by
  induction cs generalizing s with
  | nil => intro ci hci; cases hci
  | cons c cs ih =>
    intro ci hci
    rcases List.mem_cons.mp hci with rfl | hci
    · exact foldl_addCourse_preserves_present cs _ ci.code (addCourse_present_self s ci)
    · exact ih _ ci hci

theorem foldl_addCourse_id (cs : List CourseInfo) (s : DBState)
    (h : ∀ ci ∈ cs, (findCourse s ci.code).isSome = true) :
    cs.foldl addCourse s = s := by
  induction cs with
  | nil => rfl
  | cons c cs ih =>
    have hc := h c (List.mem_cons_self c cs)
    obtain ⟨y, hy⟩ := Option.isSome_iff_exists.mp hc
    rw [List.foldl_cons, show addCourse s c = s by simp [addCourse, hy]]
    exact ih (fun ci hci => h ci (List.mem_cons_of_mem c hci))

theorem addStudent_preserves_present (s : DBState) (sd : StudentData) (reg : String)
    (h : (findStudent s reg).isSome = true) :
    (findStudent (addStudent s sd) reg).isSome = true := by
  unfold addStudent
  split
  · exact h
  · unfold findStudent at h ⊢
    dsimp only
    rw [List.find?_append]
    obtain ⟨y, hy⟩ := Option.isSome_iff_exists.mp h
    rw [hy]; rfl

theorem addStudent_present_self (s : DBState) (sd : StudentData) :
    (findStudent (addStudent s sd) sd.registration_no).isSome = true := by
  rcases h : findStudent s sd.registration_no with _ | st
  · unfold findStudent at h
    simp [addStudent, findStudent, h, List.find?_append, List.find?]
  · simp [addStudent, h]

theorem foldl_addStudent_preserves_present (sds : List StudentData) (s : DBState) (reg : String)
    (h : (findStudent s reg).isSome = true) :
    (findStudent (sds.foldl addStudent s) reg).isSome = true := by
  induction sds generalizing s with
  | nil => exact h
  | cons sd sds ih => exact ih _ (addStudent_preserves_present s sd reg h)

theorem foldl_addStudent_present (sds : List StudentData) (s : DBState) :
    ∀ sd ∈ sds, (findStudent (sds.foldl addStudent s) sd.registration_no).isSome = true := by
  induction sds generalizing s with
  | nil => intro sd hsd; cases hsd
  | cons x sds ih =>
    intro sd hsd
    rcases List.mem_cons.mp hsd with rfl | hsd
    · exact foldl_addStudent_preserves_present sds _ sd.registration_no
        (addStudent_present_self s sd)
    · exact ih _ sd hsd

theorem foldl_addStudent_id (sds : List StudentData) (s : DBState)
    (h : ∀ sd ∈ sds, (findStudent s sd.registration_no).isSome = true) :
    sds.foldl addStudent s = s := by
  induction sds with
  | nil => rfl
  | cons x sds ih =>
    have hx := h x (List.mem_cons_self x sds)
    obtain ⟨y, hy⟩ := Option.isSome_iff_exists.mp hx
    rw [List.foldl_cons, show addStudent s x = s by simp [addStudent, hy]]
    exact ih (fun sd hsd => h sd (List.mem_cons_of_mem x hsd))

/-! ## The per-tuple coverage invariant behind idempotence -/

/-- `Covered s t`: if the tuple resolves, the store already holds a record for
its (student, course) pair with at least as many conducted periods (or the
tuple is below the five-period minimum). -/
def Covered (s : DBState) (t : AttTuple) : Prop :=
  ∀ st co, findStudent s t.registration_no = some st →
    findCourse s t.course_code = some co →
    t.conducted_periods < 5 ∨
      ∃ r, findRecord s st.id co.id = some r ∧
        t.conducted_periods ≤ r.conducted_periods

theorem saveAttendanceStep_coveredSelf (acc : DBState × Counters) (t : AttTuple) :
    Covered (saveAttendanceStep acc t).1 t := by
  obtain ⟨s, c⟩ := acc
  by_cases h5 : t.conducted_periods < 5
  · intro st co _ _; exact Or.inl h5
  · rcases hst : findStudent s t.registration_no with _ | st0
    · intro st co hst2 _
      rw [findStudent_congr _ s _ (saveAttendanceStep_students (s, c) t), hst] at hst2
      cases hst2
    · rcases hco : findCourse s t.course_code with _ | co0
      · intro st co _ hco2
        rw [findCourse_congr _ s _ (saveAttendanceStep_courses (s, c) t), hco] at hco2
        cases hco2
      · intro st co hst2 hco2
        rw [findStudent_congr _ s _ (saveAttendanceStep_students (s, c) t), hst] at hst2
        rw [findCourse_congr _ s _ (saveAttendanceStep_courses (s, c) t), hco] at hco2
        obtain rfl : st0 = st := (Option.some.injEq _ _).mp hst2
        obtain rfl : co0 = co := (Option.some.injEq _ _).mp hco2
        rcases hr : findRecord s st0.id co0.id with _ | r0
        · -- insert branch: the fresh record has exactly the incoming values
          right
          refine ⟨⟨st0.id, co0.id, t.attended_periods, t.conducted_periods,
            t.attendance_percentage⟩, ?_, le_refl _⟩
          simp only [saveAttendanceStep, h5, hst, hco, hr, if_false]
          unfold findRecord at hr ⊢
          dsimp only
          rw [List.find?_append, hr]
          simp [List.find?]
        · by_cases hlt : r0.conducted_periods < t.conducted_periods
          · -- update branch
            right
            have hpy : (fun x : Record => x.student_id == st0.id && x.course_id == co0.id)
                { r0 with
                  attended_periods := t.attended_periods
                  conducted_periods := t.conducted_periods
                  attendance_percentage := t.attendance_percentage } = true := by
              have := List.find?_some hr
              simpa using this
            refine ⟨{ r0 with
                      attended_periods := t.attended_periods
                      conducted_periods := t.conducted_periods
                      attendance_percentage := t.attendance_percentage }, ?_, le_refl _⟩
            simp only [saveAttendanceStep, h5, hst, hco, hr, hlt, if_true, if_false]
            exact find?_replaceFirst_self _ _ s.records hpy r0 hr
          · -- skip branch: the existing record already dominates
            right
            refine ⟨r0, ?_, not_lt.mp hlt⟩
            simp [saveAttendanceStep, h5, hst, hco, hr, hlt]

theorem saveAttendanceStep_covered (acc : DBState × Counters) (u t : AttTuple)
    (h : Covered acc.1 t) : Covered (saveAttendanceStep acc u).1 t := by
  intro st co hst hco
  rw [findStudent_congr _ acc.1 _ (saveAttendanceStep_students acc u)] at hst
  rw [findCourse_congr _ acc.1 _ (saveAttendanceStep_courses acc u)] at hco
  rcases h st co hst hco with h5 | ⟨r, hr, hle⟩
  · exact Or.inl h5
  · obtain ⟨r2, hr2, hc2⟩ := saveAttendanceStep_mono acc u st.id co.id r hr
    refine Or.inr ⟨r2, hr2, ?_⟩
    rcases hc2 with rfl | hc2
    · exact hle
    · exact hle.trans (le_of_lt hc2)

theorem foldl_step_covered_pres (l : List AttTuple) (acc : DBState × Counters) (t : AttTuple)
    (h : Covered acc.1 t) : Covered (l.foldl saveAttendanceStep acc).1 t := by
  induction l generalizing acc with
  | nil => exact h
  | cons u l ih => exact ih _ (saveAttendanceStep_covered acc u t h)

theorem foldl_step_covered (l : List AttTuple) (acc : DBState × Counters) :
    ∀ t ∈ l, Covered (l.foldl saveAttendanceStep acc).1 t := by
  induction l generalizing acc with
  | nil => intro t ht; cases ht
  | cons u l ih =>
    intro t ht
    rcases List.mem_cons.mp ht with rfl | ht
    · exact foldl_step_covered_pres l _ t (saveAttendanceStep_coveredSelf acc t)
    · exact ih _ t ht

theorem foldl_step_allCovered (l : List AttTuple) (s : DBState) (c : Counters)
    (h : ∀ t ∈ l, Covered s t) :
    (l.foldl saveAttendanceStep (s, c)).1 = s ∧
    (l.foldl saveAttendanceStep (s, c)).2.added = c.added ∧
    (l.foldl saveAttendanceStep (s, c)).2.updated = c.updated := by
  induction l generalizing c with
  | nil => exact ⟨rfl, rfl, rfl⟩
  | cons t l ih =>
    have hstep : ∃ c2 : Counters, saveAttendanceStep (s, c) t = (s, c2) ∧
        c2.added = c.added ∧ c2.updated = c.updated := by
      by_cases h5 : t.conducted_periods < 5
      · exact ⟨{ c with skipped := c.skipped + 1 }, by simp [saveAttendanceStep, h5], rfl, rfl⟩
      · rcases hst : findStudent s t.registration_no with _ | st
        · exact ⟨c, by simp [saveAttendanceStep, h5, hst], rfl, rfl⟩
        · rcases hco : findCourse s t.course_code with _ | co
          · exact ⟨c, by simp [saveAttendanceStep, h5, hst, hco], rfl, rfl⟩
          · rcases h t (List.mem_cons_self t l) st co hst hco with h5x | ⟨r, hr, hle⟩
            · exact absurd h5x h5
            · have hnlt : ¬ r.conducted_periods < t.conducted_periods := not_lt.mpr hle
              exact ⟨{ c with skipped := c.skipped + 1 },
                by simp [saveAttendanceStep, h5, hst, hco, hr, hnlt], rfl, rfl⟩
    obtain ⟨c2, he, ha, hu⟩ := hstep
    rw [List.foldl_cons, he]
    obtain ⟨h1, h2, h3⟩ := ih c2 (fun t2 ht2 => h t2 (List.mem_cons_of_mem t ht2))
    exact ⟨h1, h2.trans ha, h3.trans hu⟩

/-! ## No duplicate student / course rows -/

/-- At most one `students` row per registration number. -/
def noDupStudents (s : DBState) : Prop :=
  s.students.Pairwise (fun a b => a.registration_no ≠ b.registration_no)

/-- At most one `courses` row per course code. -/
def noDupCourses (s : DBState) : Prop :=
  s.courses.Pairwise (fun a b => a.course_code ≠ b.course_code)

instance (s : DBState) : Decidable (noDupStudents s) := by
  unfold noDupStudents; infer_instance

instance (s : DBState) : Decidable (noDupCourses s) := by
  unfold noDupCourses; infer_instance

theorem addStudent_noDup (s : DBState) (sd : StudentData) (h : noDupStudents s) :
    noDupStudents (addStudent s sd) := by
  rcases hf : findStudent s sd.registration_no with _ | st
  · unfold noDupStudents
    simp only [addStudent, hf]
    rw [List.pairwise_append]
    refine ⟨h, List.pairwise_singleton _ _, ?_⟩
    intro a ha b hb
    rcases List.mem_singleton.mp hb with rfl
    unfold findStudent at hf
    have := List.find?_eq_none.mp hf a ha
    simpa using this
  · simpa [addStudent, hf] using h

theorem addCourse_noDup (s : DBState) (ci : CourseInfo) (h : noDupCourses s) :
    noDupCourses (addCourse s ci) := by
  rcases hf : findCourse s ci.code with _ | co
  · unfold noDupCourses
    simp only [addCourse, hf]
    rw [List.pairwise_append]
    refine ⟨h, List.pairwise_singleton _ _, ?_⟩
    intro a ha b hb
    rcases List.mem_singleton.mp hb with rfl
    unfold findCourse at hf
    have := List.find?_eq_none.mp hf a ha
    simpa using this
  · simpa [addCourse, hf] using h

theorem noDupStudents_congr (s1 s2 : DBState) (h : s1.students = s2.students) :
    noDupStudents s1 ↔ noDupStudents s2 := by
  unfold noDupStudents; rw [h]

theorem noDupCourses_congr (s1 s2 : DBState) (h : s1.courses = s2.courses) :
    noDupCourses s1 ↔ noDupCourses s2 := by
  unfold noDupCourses; rw [h]

theorem foldl_addCourse_noDup (cs : List CourseInfo) (s : DBState) (hc : noDupCourses s) :
    noDupCourses (cs.foldl addCourse s) := by
  induction cs generalizing s with
  | nil => exact hc
  | cons ci cs ih => exact ih _ (addCourse_noDup s ci hc)

theorem foldl_addStudent_noDup (sds : List StudentData) (s : DBState) (hs : noDupStudents s) :
    noDupStudents (sds.foldl addStudent s) := by
  induction sds generalizing s with
  | nil => exact hs
  | cons sd sds ih => exact ih _ (addStudent_noDup s sd hs)

theorem saveToDatabase_noDup (s : DBState) (pd : Payload)
    (hs : noDupStudents s) (hc : noDupCourses s) :
    noDupStudents (saveToDatabase s pd).1 ∧ noDupCourses (saveToDatabase s pd).1 := by
  unfold saveToDatabase
  have hs1 : noDupStudents (pd.courses.foldl addCourse s) :=
    (noDupStudents_congr _ s (foldl_addCourse_students _ _)).mpr hs
  have hc1 : noDupCourses (pd.courses.foldl addCourse s) :=
    foldl_addCourse_noDup pd.courses s hc
  have hs2 : noDupStudents (pd.students.foldl addStudent (pd.courses.foldl addCourse s)) :=
    foldl_addStudent_noDup pd.students _ hs1
  have hc2 : noDupCourses (pd.students.foldl addStudent (pd.courses.foldl addCourse s)) :=
    (noDupCourses_congr _ _ (foldl_addStudent_courses _ _)).mpr hc1
  constructor
  · exact (noDupStudents_congr _ _ (foldl_step_students pd.attendance _)).mpr hs2
  · exact (noDupCourses_congr _ _ (foldl_step_courses pd.attendance _)).mpr hc2

/-! ## Idempotence of re-ingestion -/

theorem saveToDatabase_courses_present (s : DBState) (pd : Payload) :
    ∀ ci ∈ pd.courses, (findCourse (saveToDatabase s pd).1 ci.code).isSome = true := by
  intro ci hci
  unfold saveToDatabase
  rw [findCourse_congr _ (pd.students.foldl addStudent (pd.courses.foldl addCourse s)) _
    (foldl_step_courses pd.attendance _)]
  rw [findCourse_congr _ (pd.courses.foldl addCourse s) _ (foldl_addStudent_courses _ _)]
  exact foldl_addCourse_present pd.courses s ci hci

theorem saveToDatabase_students_present (s : DBState) (pd : Payload) :
    ∀ sd ∈ pd.students, (findStudent (saveToDatabase s pd).1 sd.registration_no).isSome = true := by
  intro sd hsd
  unfold saveToDatabase
  rw [findStudent_congr _ (pd.students.foldl addStudent (pd.courses.foldl addCourse s)) _
    (foldl_step_students pd.attendance _)]
  exact foldl_addStudent_present pd.students _ sd hsd

theorem saveToDatabase_covered (s : DBState) (pd : Payload) :
    ∀ t ∈ pd.attendance, Covered (saveToDatabase s pd).1 t := by
  intro t ht
  unfold saveToDatabase
  exact foldl_step_covered pd.attendance _ t ht

/-- **C3.** Ingestion is idempotent: running `save_to_database` a second time
on the identical payload yields zero added and zero updated attendance
records, and for every number of repetitions the store never holds two
`students` rows with one registration number or two `courses` rows with one
course code. -/
theorem reingest_idempotent (s : DBState) (pd : Payload)
    (hs : noDupStudents s) (hc : noDupCourses s) :
    (saveToDatabase (saveToDatabase s pd).1 pd).2.added = 0 ∧
    (saveToDatabase (saveToDatabase s pd).1 pd).2.updated = 0 ∧
    ∀ n : Nat, noDupStudents ((fun st => (saveToDatabase st pd).1)^[n] s) ∧
      noDupCourses ((fun st => (saveToDatabase st pd).1)^[n] s) := by
  have hph1 : pd.courses.foldl addCourse (saveToDatabase s pd).1 = (saveToDatabase s pd).1 :=
    foldl_addCourse_id _ _ (fun ci hci => saveToDatabase_courses_present s pd ci hci)
  have hph2 : pd.students.foldl addStudent (saveToDatabase s pd).1 = (saveToDatabase s pd).1 :=
    foldl_addStudent_id _ _ (fun sd hsd => saveToDatabase_students_present s pd sd hsd)
  have hcov := saveToDatabase_covered s pd
  have hmain := foldl_step_allCovered pd.attendance (saveToDatabase s pd).1 ⟨0, 0, 0⟩ hcov
  have heq : saveToDatabase (saveToDatabase s pd).1 pd
      = pd.attendance.foldl saveAttendanceStep
          (pd.students.foldl addStudent (pd.courses.foldl addCourse (saveToDatabase s pd).1),
           ⟨0, 0, 0⟩) := rfl
  refine ⟨?_, ?_, ?_⟩
  · rw [heq, hph1, hph2]
    exact hmain.2.1
  · rw [heq, hph1, hph2]
    exact hmain.2.2
  · intro n
    induction n with
    | zero => exact ⟨hs, hc⟩
    | succ n ih =>
      rw [Function.iterate_succ_apply']
      exact saveToDatabase_noDup _ pd ih.1 ih.2

/-- Witness for `reingest_idempotent`: a one-student one-course payload
ingested into the empty store. -/
theorem reingest_idempotent_witness :
    noDupStudents DBState.empty ∧ noDupCourses DBState.empty ∧
    ((saveToDatabase (saveToDatabase DBState.empty
        ⟨[⟨"A1", "21IT001", "Alice"⟩], [⟨"21IT001", "22IT580", "DS", 8, 10, 80⟩],
          [⟨5, "22IT580", "DS"⟩]⟩).1
        ⟨[⟨"A1", "21IT001", "Alice"⟩], [⟨"21IT001", "22IT580", "DS", 8, 10, 80⟩],
          [⟨5, "22IT580", "DS"⟩]⟩).2.added = 0 ∧
     (saveToDatabase (saveToDatabase DBState.empty
        ⟨[⟨"A1", "21IT001", "Alice"⟩], [⟨"21IT001", "22IT580", "DS", 8, 10, 80⟩],
          [⟨5, "22IT580", "DS"⟩]⟩).1
        ⟨[⟨"A1", "21IT001", "Alice"⟩], [⟨"21IT001", "22IT580", "DS", 8, 10, 80⟩],
          [⟨5, "22IT580", "DS"⟩]⟩).2.updated = 0 ∧
     ∀ n : Nat, noDupStudents ((fun st => (saveToDatabase st
        ⟨[⟨"A1", "21IT001", "Alice"⟩], [⟨"21IT001", "22IT580", "DS", 8, 10, 80⟩],
          [⟨5, "22IT580", "DS"⟩]⟩).1)^[n] DBState.empty) ∧
       noDupCourses ((fun st => (saveToDatabase st
        ⟨[⟨"A1", "21IT001", "Alice"⟩], [⟨"21IT001", "22IT580", "DS", 8, 10, 80⟩],
          [⟨5, "22IT580", "DS"⟩]⟩).1)^[n] DBState.empty)) :=
  ⟨by decide, by decide,
   reingest_idempotent DBState.empty
     ⟨[⟨"A1", "21IT001", "Alice"⟩], [⟨"21IT001", "22IT580", "DS", 8, 10, 80⟩],
       [⟨5, "22IT580", "DS"⟩]⟩ (by decide) (by decide)⟩

/-! ## Header scanner, layout mapper and row extractor
(`ExcelProcessor.extract_course_info_from_header`, `find_data_start_row`,
`map_columns_to_courses`, `_process_dataframe`)

The course-header regular expression
`re.search(r'(\d{2}[A-Z0-9]{4,5})\s*-\s*(.+)', cell)` followed by
`.strip()` on the name is abstracted as a parameter
`courseMatch : String → Option (String × String)` returning the
(code, name) groups of the first match, if any; no verified claim depends
on the concrete pattern, only on which cells are scanned and in which
order their matches are collected. -/

/-- One cell of the header scan: only string cells are considered
(`isinstance(cell_value, str)`), and a regex match yields an entry carrying
the cell's column index. -/
def courseScanCell (f : String → Option (String × String)) (p : Nat × Cell) :
    Option CourseInfo :=
  match p.2 with
  | Cell.str s => (f s).map (fun cn => ⟨p.1, cn.1, cn.2⟩)
  | _ => none

/-- `ExcelProcessor.extract_course_info_from_header`: scan row index 4 (when it
exists) left to right; each regex match contributes an entry keyed by its
column index. -/
def extractCourseInfoFromHeader (courseMatch : String → Option (String × String))
    (df : List (List Cell)) : List CourseInfo :=
  match df[4]? with
  | none => []
  | some row => row.enum.filterMap (courseScanCell courseMatch)

/-- The concatenated upper-cased text of the non-NaN cells of a row, as built
by `' '.join([str(x) for x in row.tolist() if pd.notna(x)]).upper()`. -/
def rowHeaderText (row : List Cell) : String :=
  pyUpper (String.intercalate " " ((row.filter pyNotna).map pyStr))

/-- Does a row's concatenated text contain one of the data-start markers? -/
def rowHasMarker (row : List Cell) : Bool :=
  strContains (rowHeaderText row) "ADMISSION NO" ||
  strContains (rowHeaderText row) "REGISTRATION NO" ||
  strContains (rowHeaderText row) "STUDENT NAME"

/-- Scanning loop of `find_data_start_row` starting at row index `i`. -/
def findDataStartRowAux : List (List Cell) → Nat → Nat
  | [], _ => 7
  | row :: rest, i => if rowHasMarker row then i + 1 else findDataStartRowAux rest (i + 1)

/-- `ExcelProcessor.find_data_start_row`: the row after the first marker row,
or the fixed fallback 7 when no row matches. -/
def findDataStartRow (df : List (List Cell)) : Nat :=
  findDataStartRowAux df 0

/-- The column triple of one course in the column map. -/
structure CourseCols where
  attended : Nat
  conducted : Nat
  percentage : Nat
deriving DecidableEq, Repr

/-- The dictionary built by `map_columns_to_courses`. -/
structure ColumnMap where
  admission_no : Option Nat
  registration_no : Option Nat
  student_name : Option Nat
  courses : List (String × CourseCols)
deriving DecidableEq, Repr

/-- Stable insertion into a list sorted by header column index. -/
def insertByColIdx (x : CourseInfo) : List CourseInfo → List CourseInfo
  | [] => [x]
  | y :: ys => if Nat.ble x.colIdx y.colIdx then x :: y :: ys else y :: insertByColIdx x ys

/-- Python's stable `sorted(courses_info.items())`: ascending column index. -/
def sortByColIdx : List CourseInfo → List CourseInfo
  | [] => []
  | x :: xs => insertByColIdx x (sortByColIdx xs)

/-- Python dict assignment `d[k] = v`: overwrite the value at the first
occurrence of `k`, else append (insertion order of `.items()` preserved). -/
def upsert (l : List (String × CourseCols)) (k : String) (v : CourseCols) :
    List (String × CourseCols) :=
  match l.find? (fun p => p.1 == k) with
  | some _ => replaceFirst (fun p => p.1 == k) (k, v) l
  | none => l ++ [(k, v)]

/-- `ExcelProcessor.map_columns_to_courses`: scalar columns by substring match
on the header row (later columns overwrite earlier ones, `elif` chain), then
the `ATTENDED` columns from index 3 onward paired positionally with the
courses sorted by their header column index. -/
def mapColumnsToCourses (headerRow : List Cell) (coursesInfo : List CourseInfo) :
    ColumnMap :=
  let scalars := headerRow.enum.foldl
    (fun (m : Option Nat × Option Nat × Option Nat) p =>
      if pyNotna p.2 then
        let u := pyUpper (pyStr p.2)
        if strContains u "ADMISSION" then (some p.1, m.2.1, m.2.2)
        else if strContains u "REGISTRATION" then (m.1, some p.1, m.2.2)
        else if strContains u "STUDENT NAME" || strContains u "NAME" then
          (m.1, m.2.1, some p.1)
        else m
      else m)
    (none, none, none)
  let attendedColIndices := (headerRow.enum.drop 3).filterMap (fun p =>
    if pyNotna p.2 && strContains (pyUpper (pyStr p.2)) "ATTENDED" then some p.1 else none)
  let courseList := sortByColIdx coursesInfo
  let courseColumns := (courseList.zip attendedColIndices).foldl
    (fun acc p => upsert acc p.1.code ⟨p.2, p.2 + 1, p.2 + 2⟩) []
  ⟨scalars.1, scalars.2.1, scalars.2.2, courseColumns⟩

/-- Lines 188–196 of `excel_processor.py`: the per-course cell handling inside
the row loop.  `none` models "skip this course for this student" (placeholder
or blank attended/conducted, or a `ValueError` in a conversion). -/
def extractAttendanceCells (attended conducted percentage : Cell) :
    Option (Int × Int × Rat) :=
  if pyNotna attended && !(pyStr attended == "-") &&
      pyNotna conducted && !(pyStr conducted == "-") then
    match pyFloat attended, pyFloat conducted with
    | some fa, some fc =>
      let a := pyTrunc fa
      let c := pyTrunc fc
      if !pyNotna percentage || pyStr percentage == "-" then
        some (a, c, if 0 < c then (a : Rat) / (c : Rat) * 100 else 0)
      else
        match pyFloat percentage with
        | some q => some (a, c, q)
        | none => none
    | _, _ => none
  else none

/-- The body of the row loop of `_process_dataframe`: `none` models a skipped
row (all-NaN row, blank or `'nan'` registration number, or an `IndexError`
reading the student columns). -/
def extractRow (cm : ColumnMap) (firstCourseName : String) (row : List Cell) :
    Option (StudentData × List AttTuple) :=
  if row.all (fun c => !pyNotna c) then none
  else
    match row[cm.admission_no.getD 0]?, row[cm.registration_no.getD 1]?,
        row[cm.student_name.getD 2]? with
    | some ac, some rc, some nc =>
      let registration_no := if pyNotna rc then pyStr rc else ""
      if registration_no == "" || registration_no == "nan" then none
      else
        some (⟨if pyNotna ac then pyStr ac else "", registration_no,
               if pyNotna nc then pyStr nc else ""⟩,
          cm.courses.filterMap (fun p =>
            match row[p.2.attended]?, row[p.2.conducted]?, row[p.2.percentage]? with
            | some a, some c, some pc =>
              (extractAttendanceCells a c pc).map (fun acp =>
                ⟨registration_no, p.1, firstCourseName, acp.1, acp.2.1, acp.2.2⟩)
            | _, _, _ => none))
    | _, _, _ => none

/-- Line 201 of `excel_processor.py`:
`courses_info[list(courses_info.keys())[0]]['name'] if courses_info else ''`,
the name of the first detected course (dict insertion order = ascending column
index). -/
def firstCourseName : List CourseInfo → String
  | [] => ""
  | ci :: _ => ci.name

/-- `ExcelProcessor._process_dataframe`.  The only failure path (`none`) is an
`IndexError` fetching the header row `df.iloc[data_start_row - 1]`, which the
outer `except` turns into a `None` result. -/
def processDataframe (courseMatch : String → Option (String × String))
    (df : List (List Cell)) : Option Payload :=
  let coursesInfo := extractCourseInfoFromHeader courseMatch df
  let dataStart := findDataStartRow df
  match df[dataStart - 1]? with
  | none => none
  | some headerRow =>
    let cm := mapColumnsToCourses headerRow coursesInfo
    let results := (df.drop dataStart).filterMap (extractRow cm (firstCourseName coursesInfo))
    some ⟨results.map (fun r => r.1), results.flatMap (fun r => r.2), coursesInfo⟩

/-! ## Claim theorems: data-start detection -/

theorem findDataStartRowAux_found (df : List (List Cell)) (i k : Nat) (row : List Cell)
    (hrow : df[i]? = some row) (hm : rowHasMarker row = true)
    (hbefore : ∀ j, j < i → ∀ rj, df[j]? = some rj → rowHasMarker rj = false) :
    findDataStartRowAux df k = k + i + 1 := by
  induction df generalizing i k with
  | nil => simp at hrow
  | cons r rest ih =>
    cases i with
    | zero =>
      simp only [List.getElem?_cons_zero] at hrow
      obtain rfl : r = row := (Option.some.injEq _ _).mp hrow
      simp [findDataStartRowAux, hm]
    | succ i =>
      have hr0 : rowHasMarker r = false :=
        hbefore 0 (Nat.succ_pos i) r (by simp)
      simp only [findDataStartRowAux, hr0, Bool.false_eq_true, if_false]
      have := ih i (k + 1) (by simpa using hrow)
        (fun j hj rj hrj => hbefore (j + 1) (Nat.succ_lt_succ hj) rj (by simpa using hrj))
      omega

theorem findDataStartRowAux_none (df : List (List Cell)) (k : Nat)
    (h : ∀ row ∈ df, rowHasMarker row = false) :
    findDataStartRowAux df k = 7 := by
  induction df generalizing k with
  | nil => rfl
  | cons r rest ih =>
    have hr := h r (List.mem_cons_self r rest)
    simp only [findDataStartRowAux, hr, Bool.false_eq_true, if_false]
    exact ih _ (fun row hrow => h row (List.mem_cons_of_mem r hrow))

/-- **C8.** `find_data_start_row` returns `i + 1` for the first row index `i`
whose concatenated non-NaN cell text contains one of the markers
`ADMISSION NO`, `REGISTRATION NO`, `STUDENT NAME` case-insensitively, and the
fixed fallback `7` when no row matches; being a total function it never raises
an error. -/
theorem find_data_start_row_spec :
    (∀ (df : List (List Cell)) (i : Nat) (row : List Cell),
      df[i]? = some row → rowHasMarker row = true →
      (∀ j, j < i → ∀ rj, df[j]? = some rj → rowHasMarker rj = false) →
      findDataStartRow df = i + 1) ∧
    (∀ df : List (List Cell), (∀ row ∈ df, rowHasMarker row = false) →
      findDataStartRow df = 7) := by
  constructor
  · intro df i row hrow hm hbefore
    have := findDataStartRowAux_found df i 0 row hrow hm hbefore
    simpa [findDataStartRow] using this
  · intro df h
    exact findDataStartRowAux_none df 0 h

/-- Witness for `find_data_start_row_spec`: a marker in row index 2 gives data
start 3, and a marker-free grid falls back to 7. -/
theorem find_data_start_row_spec_witness :
    rowHasMarker [Cell.str "S.No", Cell.str "REGISTRATION NO"] = true ∧
    findDataStartRow [[Cell.num 1], [], [Cell.str "S.No", Cell.str "REGISTRATION NO"]] = 3 ∧
    findDataStartRow [[Cell.str "hello"], [Cell.num 2]] = 7 :=
  ⟨by decide,
   find_data_start_row_spec.1 [[Cell.num 1], [], [Cell.str "S.No", Cell.str "REGISTRATION NO"]]
     2 [Cell.str "S.No", Cell.str "REGISTRATION NO"] (by decide) (by decide)
     (by intro j hj rj hrj
         interval_cases j
         · simp only [List.getElem?_cons_zero, Option.some.injEq] at hrj
           subst hrj; decide
         · simp only [List.getElem?_cons_succ, List.getElem?_cons_zero,
             Option.some.injEq] at hrj
           subst hrj; decide),
   find_data_start_row_spec.2 [[Cell.str "hello"], [Cell.num 2]]
     (by intro row hrow
         rcases List.mem_cons.mp hrow with rfl | hrow
         · decide
         · rcases List.mem_cons.mp hrow with rfl | hrow
           · decide
           · cases hrow)⟩

/-! ## Claim theorems: percentage back-fill -/

/-- **C5.** When the attended and conducted cells are present (not NaN, not the
placeholder `-`) and convert to numbers, the row extractor computes the
percentage as `attended / conducted * 100` for positive conducted and `0` for
conducted `= 0` whenever the percentage cell is NaN or the placeholder, and
parses a present percentage cell literally as a float, using it as-is. -/
theorem percentage_backfill (att con pct : Cell) (fa fc : Rat)
    (h1 : pyNotna att = true) (h2 : ¬ pyStr att = "-")
    (h3 : pyNotna con = true) (h4 : ¬ pyStr con = "-")
    (h5 : pyFloat att = some fa) (h6 : pyFloat con = some fc) :
    ((pyNotna pct = false ∨ pyStr pct = "-") →
      (0 < pyTrunc fc →
        extractAttendanceCells att con pct =
          some (pyTrunc fa, pyTrunc fc,
            (pyTrunc fa : Rat) / (pyTrunc fc : Rat) * 100)) ∧
      (pyTrunc fc = 0 →
        extractAttendanceCells att con pct = some (pyTrunc fa, pyTrunc fc, 0))) ∧
    (∀ q : Rat, pyNotna pct = true → ¬ pyStr pct = "-" → pyFloat pct = some q →
      extractAttendanceCells att con pct = some (pyTrunc fa, pyTrunc fc, q)) := by
  have hb2 : (pyStr att == "-") = false := by
    simpa using h2
  have hb4 : (pyStr con == "-") = false := by
    simpa using h4
  constructor
  · intro hpl
    have hplb : (!pyNotna pct || pyStr pct == "-") = true := by
      rcases hpl with hpl | hpl
      · simp [hpl]
      · simp [hpl]
    constructor
    · intro hpos
      simp [extractAttendanceCells, h1, h3, hb2, hb4, h5, h6, hplb, hpos]
    · intro hzero
      simp [extractAttendanceCells, h1, h3, hb2, hb4, h5, h6, hplb, hzero]
  · intro q hq1 hq2 hq3
    have hplb : (!pyNotna pct || pyStr pct == "-") = false := by
      simp [hq1]
      simpa using hq2
    simp [extractAttendanceCells, h1, h3, hb2, hb4, h5, h6, hplb, hq3]

/-- Witness for `percentage_backfill`: cells 8 and 10 with a blank percentage
cell, and the same cells with a literal percentage cell 79.5. -/
theorem percentage_backfill_witness :
    pyNotna (Cell.num 8) = true ∧ pyFloat (Cell.num 8) = some 8 ∧
    pyFloat (Cell.num 10) = some 10 ∧
    (((pyNotna Cell.na = false ∨ pyStr Cell.na = "-") →
      (0 < pyTrunc 10 →
        extractAttendanceCells (Cell.num 8) (Cell.num 10) Cell.na =
          some (pyTrunc 8, pyTrunc 10, (pyTrunc 8 : Rat) / (pyTrunc 10 : Rat) * 100)) ∧
      (pyTrunc 10 = 0 →
        extractAttendanceCells (Cell.num 8) (Cell.num 10) Cell.na =
          some (pyTrunc 8, pyTrunc 10, 0))) ∧
    (∀ q : Rat, pyNotna Cell.na = true → ¬ pyStr Cell.na = "-" →
      pyFloat Cell.na = some q →
      extractAttendanceCells (Cell.num 8) (Cell.num 10) Cell.na =
        some (pyTrunc 8, pyTrunc 10, q))) :=
  ⟨by decide, by decide, by decide,
   percentage_backfill (Cell.num 8) (Cell.num 10) Cell.na 8 10
     (by decide) (by decide) (by decide) (by decide) (by decide) (by decide)⟩

/-! ## Claim theorems: course name taken from the first detected course -/

theorem courseScan_colIdx_ge (f : String → Option (String × String))
    (l : List Cell) (n : Nat) :
    ∀ ci ∈ (List.enumFrom n l).filterMap (courseScanCell f), n ≤ ci.colIdx := by
  induction l generalizing n with
  | nil => intro ci h; simp at h
  | cons c t ih =>
    intro ci h
    rw [show List.enumFrom n (c :: t) = (n, c) :: List.enumFrom (n + 1) t from rfl,
      List.filterMap_cons] at h
    cases c with
    | na =>
      simp only [courseScanCell] at h
      exact Nat.le_of_succ_le (ih (n + 1) ci h)
    | num q =>
      simp only [courseScanCell] at h
      exact Nat.le_of_succ_le (ih (n + 1) ci h)
    | str s =>
      rcases hm : f s with _ | cn
      · simp only [courseScanCell, hm, Option.map_none'] at h
        exact Nat.le_of_succ_le (ih (n + 1) ci h)
      · simp only [courseScanCell, hm, Option.map_some'] at h
        rcases List.mem_cons.mp h with rfl | h
        · exact le_refl n
        · exact Nat.le_of_succ_le (ih (n + 1) ci h)

theorem courseScan_head_min (f : String → Option (String × String))
    (l : List Cell) (n : Nat) (ci0 : CourseInfo) (rest : List CourseInfo)
    (h : (List.enumFrom n l).filterMap (courseScanCell f) = ci0 :: rest) :
    ∀ ci ∈ ci0 :: rest, ci0.colIdx ≤ ci.colIdx := by
  induction l generalizing n with
  | nil => simp at h
  | cons c t ih =>
    rw [show List.enumFrom n (c :: t) = (n, c) :: List.enumFrom (n + 1) t from rfl,
      List.filterMap_cons] at h
    cases c with
    | na =>
      simp only [courseScanCell] at h
      exact ih (n + 1) h
    | num q =>
      simp only [courseScanCell] at h
      exact ih (n + 1) h
    | str s =>
      rcases hm : f s with _ | cn
      · simp only [courseScanCell, hm, Option.map_none'] at h
        exact ih (n + 1) h
      · simp only [courseScanCell, hm, Option.map_some'] at h
        obtain ⟨h1, h2⟩ := List.cons_eq_cons.mp h
        intro ci hci
        rcases List.mem_cons.mp hci with rfl | hci
        · exact le_refl _
        · have hge := courseScan_colIdx_ge f t (n + 1) ci (h2 ▸ hci)
          rw [← h1]
          exact Nat.le_of_succ_le hge

theorem extractRow_course_name (cm : ColumnMap) (fn : String) (row : List Cell)
    (pr : StudentData × List AttTuple) (h : extractRow cm fn row = some pr) :
    ∀ t ∈ pr.2, t.course_name = fn := by
  unfold extractRow at h
  split at h
  · simp at h
  · split at h
    · rename_i ac rc nc hac hrc hnc
      by_cases hn : pyNotna rc = true
      · simp only [hn, if_true] at h
        by_cases hv : (pyStr rc == "" || pyStr rc == "nan") = true
        · rw [if_pos hv] at h; simp at h
        · rw [if_neg hv] at h
          obtain rfl := Option.some.inj h
          intro t ht
          simp only at ht
          obtain ⟨p, hp, hfp⟩ := List.mem_filterMap.mp ht
          split at hfp
          · rcases he : extractAttendanceCells _ _ _ with _ | acp
            · rw [he] at hfp; simp at hfp
            · rw [he] at hfp
              simp only [Option.map_some'] at hfp
              obtain rfl := Option.some.inj hfp
              rfl
          · simp at hfp
      · simp only [Bool.not_eq_true] at hn
        simp only [hn, Bool.false_eq_true, if_false] at h
        simp at h
    · simp at h

/-- **C7.** When at least one course is detected, every attendance tuple
emitted by `_process_dataframe` carries the name of the first detected course
— the course with the smallest detected column index — regardless of the
tuple's own `course_code`. -/
theorem course_name_from_first_detected
    (courseMatch : String → Option (String × String)) (df : List (List Cell))
    (pd : Payload) (ci0 : CourseInfo)
    (h : processDataframe courseMatch df = some pd)
    (hhead : pd.courses.head? = some ci0) :
    (∀ t ∈ pd.attendance, t.course_name = ci0.name) ∧
    (∀ ci ∈ pd.courses, ci0.colIdx ≤ ci.colIdx) := by
  simp only [processDataframe] at h
  split at h
  · simp at h
  · obtain rfl := Option.some.inj h
    dsimp only at hhead ⊢
    rcases hC : extractCourseInfoFromHeader courseMatch df with _ | ⟨c0, crest⟩
    · rw [hC] at hhead; simp at hhead
    · rw [hC] at hhead
      simp only [List.head?_cons] at hhead
      obtain rfl := Option.some.inj hhead
      constructor
      · intro t ht
        obtain ⟨pr, hpr, htm⟩ := List.mem_flatMap.mp ht
        obtain ⟨row, hrow, hex⟩ := List.mem_filterMap.mp hpr
        have := extractRow_course_name _ _ row pr hex t htm
        rw [this]
        rfl
      · unfold extractCourseInfoFromHeader at hC
        split at hC
        · simp at hC
        · rename_i row4 hrow4
          rw [show row4.enum = List.enumFrom 0 row4 from rfl] at hC
          exact courseScan_head_min courseMatch _ 0 c0 crest hC

/-- A concrete course matcher standing in for the header regex on two cells. -/
def cmC7 : String → Option (String × String) := fun s =>
  if s = "22IT580 - DS" then some ("22IT580", "DS")
  else if s = "22MA101 - Math" then some ("22MA101", "Math")
  else none

/-- A two-course sheet for exercising the course-name artifact. -/
def dfC7 : List (List Cell) :=
  [ [], [], [], [],
    [Cell.na, Cell.na, Cell.na, Cell.str "22IT580 - DS", Cell.na, Cell.na,
     Cell.str "22MA101 - Math"],
    [Cell.str "ADMISSION NO", Cell.str "REGISTRATION NO", Cell.str "STUDENT NAME",
     Cell.str "ATTENDED", Cell.str "CONDUCTED", Cell.str "PCT",
     Cell.str "ATTENDED", Cell.str "CONDUCTED", Cell.str "PCT"],
    [Cell.str "A1", Cell.str "21IT001", Cell.str "Alice",
     Cell.num 8, Cell.num 10, Cell.num 80, Cell.num 5, Cell.num 10, Cell.num 50] ]

/-- The payload `_process_dataframe` produces for `dfC7`: both tuples carry the
first course's name `"DS"`, including the `22MA101` tuple. -/
def pdC7 : Payload :=
  ⟨[⟨"A1", "21IT001", "Alice"⟩],
   [⟨"21IT001", "22IT580", "DS", 8, 10, 80⟩,
    ⟨"21IT001", "22MA101", "DS", 5, 10, 50⟩],
   [⟨3, "22IT580", "DS"⟩, ⟨6, "22MA101", "Math"⟩]⟩

/-- Witness for `course_name_from_first_detected` on the two-course sheet. -/
theorem course_name_from_first_detected_witness :
    processDataframe cmC7 dfC7 = some pdC7 ∧
    pdC7.courses.head? = some ⟨3, "22IT580", "DS"⟩ ∧
    ((∀ t ∈ pdC7.attendance, t.course_name = (⟨3, "22IT580", "DS"⟩ : CourseInfo).name) ∧
     (∀ ci ∈ pdC7.courses, (⟨3, "22IT580", "DS"⟩ : CourseInfo).colIdx ≤ ci.colIdx)) :=
  ⟨by decide, by decide,
   course_name_from_first_detected cmC7 dfC7 pdC7 ⟨3, "22IT580", "DS"⟩
     (by decide) (by decide)⟩

/-! ## Attendance service (`AttendanceService.get_filtered_attendance_records`) -/

/-- A row of the joined `AttendanceRecord ⋈ Student ⋈ Course` query. -/
structure JoinedRow where
  record : Record
  student : Student
  course : Course
deriving DecidableEq, Repr

/-- Row of `students` with the given primary key. -/
def findStudentById (s : DBState) (i : Nat) : Option Student :=
  s.students.find? (fun st => st.id == i)

/-- Row of `courses` with the given primary key. -/
def findCourseById (s : DBState) (i : Nat) : Option Course :=
  s.courses.find? (fun co => co.id == i)

/-- `db.session.query(AttendanceRecord).join(Student).join(Course)`: the inner
join along the two foreign keys. -/
def joinedRecords (s : DBState) : List JoinedRow :=
  s.records.filterMap (fun r =>
    match findStudentById s r.student_id, findCourseById s r.course_id with
    | some st, some co => some ⟨r, st, co⟩
    | _, _ => none)

/-- The `ORDER BY` comparison: attendance percentage ascending, then
registration number ascending, then course code ascending. -/
def ordKeyLe (a b : JoinedRow) : Bool :=
  decide (toLex (a.record.attendance_percentage,
      toLex (a.student.registration_no, a.course.course_code)) ≤
    toLex (b.record.attendance_percentage,
      toLex (b.student.registration_no, b.course.course_code)))

/-- `AttendanceService.get_filtered_attendance_records`: conditionally applied
filters (Python truthiness on the parameters), then the three-key ordering.
The `threshold < 100` guard mirrors line 130 of the source. -/
def getFilteredAttendanceRecords (s : DBState) (course_code : String)
    (threshold : Rat) (search : String) (exclude_courses : List String) :
    List JoinedRow :=
  let q0 := joinedRecords s
  let q1 := if course_code ≠ "" then
      q0.filter (fun j => j.course.course_code == course_code) else q0
  let q2 := if exclude_courses ≠ [] then
      q1.filter (fun j => !(exclude_courses.contains j.course.course_code)) else q1
  let q3 := if threshold < 100 then
      q2.filter (fun j => j.record.attendance_percentage < threshold) else q2
  let q4 := if search ≠ "" then
      q3.filter (fun j =>
        strContains (pyLower j.student.name) (pyLower search) ||
        strContains (pyLower j.student.registration_no) (pyLower search)) else q3
  q4.mergeSort ordKeyLe

theorem ordKeyLe_trans (a b c : JoinedRow) (h1 : ordKeyLe a b = true)
    (h2 : ordKeyLe b c = true) : ordKeyLe a c = true := by
  rw [ordKeyLe, decide_eq_true_iff] at h1 h2 ⊢
  exact le_trans h1 h2

theorem ordKeyLe_total (a b : JoinedRow) : (ordKeyLe a b || ordKeyLe b a) = true := by
  rcases le_total
      (toLex (a.record.attendance_percentage,
        toLex (a.student.registration_no, a.course.course_code)))
      (toLex (b.record.attendance_percentage,
        toLex (b.student.registration_no, b.course.course_code))) with h | h
  · simp [ordKeyLe, h]
  · simp [ordKeyLe, h]

/-- **C9.** With `threshold = 75` and no other filters,
`get_filtered_attendance_records` returns exactly the joined records whose
attendance percentage is strictly below 75, ordered by percentage ascending,
then registration number ascending, then course code ascending. -/
theorem threshold75_filter (s : DBState) :
    (∀ j, j ∈ getFilteredAttendanceRecords s "" 75 "" [] ↔
      (j ∈ joinedRecords s ∧ j.record.attendance_percentage < 75)) ∧
    (getFilteredAttendanceRecords s "" 75 "" []).Pairwise (fun a b =>
      a.record.attendance_percentage < b.record.attendance_percentage ∨
      (a.record.attendance_percentage = b.record.attendance_percentage ∧
        (a.student.registration_no < b.student.registration_no ∨
         (a.student.registration_no = b.student.registration_no ∧
          a.course.course_code ≤ b.course.course_code)))) := by
  have hq : getFilteredAttendanceRecords s "" 75 "" [] =
      ((joinedRecords s).filter
        (fun j => j.record.attendance_percentage < 75)).mergeSort ordKeyLe := by
    simp [getFilteredAttendanceRecords, show (75 : Rat) < 100 by norm_num]
  constructor
  · intro j
    rw [hq, List.mem_mergeSort, List.mem_filter]
    simp
  · rw [hq]
    refine List.Pairwise.imp ?_ (List.sorted_mergeSort ordKeyLe_trans ordKeyLe_total _)
    intro a b hab
    rw [ordKeyLe, decide_eq_true_iff, Prod.Lex.le_iff] at hab
    rcases hab with hlt | ⟨heq, hle⟩
    · exact Or.inl hlt
    · refine Or.inr ⟨heq, ?_⟩
      rw [Prod.Lex.le_iff] at hle
      exact hle

/-! ## Upload endpoint (`app.upload_file`)

The per-file processing (`process_excel_file_from_memory` + `save_to_database`)
is abstracted as a parameter `proc` that transforms the store and reports
per-file success; the response-shaping logic of the endpoint is embedded
faithfully, including the misplaced `else` clause: the statement
`try: gc.collect() except Exception: pass else: errors.append(...)` runs its
`else` branch whenever `gc.collect()` raises no exception — which is always —
so the `"Unsupported file format"` message is appended for every file that
passed the `allowed_file` check. -/

/-- An uploaded file as seen by the endpoint (content behind `proc`). -/
structure UploadFile where
  filename : String
deriving DecidableEq, Repr

/-- `app.allowed_file`: a dot in the name and an allowed final extension. -/
def allowedFile (filename : String) : Bool :=
  filename.data.contains '.' &&
    (let ext := (filename.data.reverse.takeWhile (fun c => !(c == '.'))).reverse.map
        Char.toLower
     ext == "xlsx".data || ext == "xls".data || ext == "csv".data)

/-- `file.filename.lower().endswith(('.xlsx', '.xls', '.csv'))`. -/
def endsWithSpreadsheetExt (filename : String) : Bool :=
  strEndsWith (pyLower filename) ".xlsx" || strEndsWith (pyLower filename) ".xls" ||
    strEndsWith (pyLower filename) ".csv"

/-- A JSON response of the endpoint. -/
inductive UploadResponse where
  | success (message : String)
  | failure (status : Nat) (error : String)
deriving DecidableEq, Repr

/-- One iteration of the upload loop, threading the store, the
`processed_files` counter and the `errors` list. -/
def uploadStep {σ : Type} (proc : UploadFile → σ → σ × Bool)
    (acc : σ × Nat × List String) (f : UploadFile) : σ × Nat × List String :=
  if !allowedFile f.filename then
    (acc.1, acc.2.1, acc.2.2 ++ ["Invalid file type: " ++ f.filename])
  else
    let afterProc :=
      if endsWithSpreadsheetExt f.filename then
        let r := proc f acc.1
        if r.2 then (r.1, acc.2.1 + 1, acc.2.2)
        else (r.1, acc.2.1, acc.2.2 ++ ["Failed to process: " ++ f.filename])
      else (acc.1, acc.2.1, acc.2.2)
    (afterProc.1, afterProc.2.1,
      afterProc.2.2 ++ ["Unsupported file format: " ++ f.filename])

/-- `app.upload_file` (POST branch): guard clauses, the sequential per-file
loop, then the aggregate response. -/
def uploadFile {σ : Type} (proc : UploadFile → σ → σ × Bool)
    (files : List UploadFile) (s : σ) : σ × UploadResponse :=
  if files.length == 0 || (files.length == 1 && (files.headD ⟨""⟩).filename == "") then
    (s, .failure 400 "No files selected")
  else if 20 < files.length then
    (s, .failure 400 "Maximum 20 files allowed at once")
  else
    let r := files.foldl (uploadStep proc) (s, 0, [])
    if 0 < r.2.1 then
      (r.1, .success ("Successfully processed " ++ toString r.2.1 ++ " file(s)." ++
        (if r.2.2 ≠ [] then
          " " ++ toString r.2.2.length ++ " file(s) had errors." else "")))
    else
      (r.1, .failure 500 ("No files were processed successfully." ++
        (if r.2.2 ≠ [] then
          " Errors: " ++ String.intercalate "; " (r.2.2.take 3) else "")))

/-! ## Claim theorems: upload endpoint -/

/-- **C10.** A request with strictly more than 20 files is rejected with
HTTP 400 and the message `Maximum 20 files allowed at once` before any file is
processed: for every per-file processing function the store is returned
unchanged. -/
theorem maxFiles_rejected {σ : Type} (proc : UploadFile → σ → σ × Bool)
    (files : List UploadFile) (s : σ) (h : 20 < files.length) :
    uploadFile proc files s =
      (s, UploadResponse.failure 400 "Maximum 20 files allowed at once") := by
  have h0 : (files.length == 0) = false := by
    simp only [beq_eq_false_iff_ne, ne_eq]
    omega
  have h1 : (files.length == 1) = false := by
    simp only [beq_eq_false_iff_ne, ne_eq]
    omega
  simp [uploadFile, h0, h1, h]

/-- Witness for `maxFiles_rejected`: 21 spreadsheet files over an arbitrary
store with processing that always succeeds. -/
theorem maxFiles_rejected_witness :
    20 < (List.replicate 21 (⟨"a.xlsx"⟩ : UploadFile)).length ∧
    uploadFile (fun (_ : UploadFile) (st : DBState) => (st, true))
        (List.replicate 21 ⟨"a.xlsx"⟩) DBState.empty =
      (DBState.empty, UploadResponse.failure 400 "Maximum 20 files allowed at once") :=
  ⟨by decide,
   maxFiles_rejected (fun _ st => (st, true)) (List.replicate 21 ⟨"a.xlsx"⟩)
     DBState.empty (by decide)⟩

/-- **C6 (code bug).** A single valid file whose processing succeeds still
produces the success message `"Successfully processed 1 file(s). 1 file(s) had
errors."`: the misplaced `else` on the `gc.collect()` `try` statement appends
`"Unsupported file format: report.xlsx"` to `errors` although the file was
neither invalid nor failed, so successfully processed files are counted as
files that had errors. -/
theorem upload_success_reports_spurious_errors :
    uploadFile (fun (_ : UploadFile) (st : DBState) => (st, true))
        [⟨"report.xlsx"⟩] DBState.empty =
      (DBState.empty,
       UploadResponse.success "Successfully processed 1 file(s). 1 file(s) had errors.") := by
  decide

end AttendanceReport
